import Mathlib

/-!
# Frame-size arithmetic of `Video` (src/libcav/video.h)

Shallow embedding of the `Video` class of `libcav`: its data members, the
inline member function `Video::getFrameSize`, and the frame count
`Video::getTotalFrames`.

`uint` is the 32-bit `unsigned int`: values are natural numbers and every
`*` and `+` of the source is reduced modulo `2^32`; `/` is truncating
division, which never leaves the range.
-/

namespace Cav

/-! ## Unsigned 32-bit arithmetic -/

/-- Number of values of the C++ type `uint` (32-bit `unsigned int`). -/
def UINT_RANGE : Nat := 2 ^ 32

/-- The C++ `a * b` on `uint` operands. -/
def umul (a b : Nat) : Nat := (a * b) % UINT_RANGE

/-- The C++ `a + b` on `uint` operands. -/
def uadd (a b : Nat) : Nat := (a + b) % UINT_RANGE

/-- The C++ `a / b` on `uint` operands (truncating; no wrap-around is possible). -/
def udiv (a b : Nat) : Nat := a / b

/-! ## Data model -/

/-- Modelled from the spec: the enumeration `VideoFormat` is declared in
`frame.h`, which is not among the files under src/; section 3 of the
specification gives its enumerators as RGB, YUV444, YUV422 and YUV420, and
`video.h` names them `RGB`, `YUV_444`, `YUV_422`, `YUV_420`. -/
inductive VideoFormat where
  | RGB
  | YUV_444
  | YUV_422
  | YUV_420
  deriving DecidableEq, Repr

/-- Value held by a C++ variable of type `VideoFormat`: one of the
enumerators, or a bit pattern equal to none of them (which no `case` label of
a `switch` matches). -/
inductive FormatValue where
  | named (f : VideoFormat)
  | unlisted
  deriving DecidableEq, Repr

/-- Observable state of the `std::fstream m_stream` member: whether it is
open, the length of the underlying file and the current position. -/
structure FStream where
  isOpen : Bool
  fileSizeBytes : Nat
  pos : Nat
  deriving DecidableEq, Repr

/-- Observable state of the `cv::VideoCapture m_video` member: whether the
capture is opened and the frame count its backend reports. -/
structure VideoCapture where
  isOpened : Bool
  frameCount : Nat
  deriving DecidableEq, Repr

/-- Data members of `class Video` (video.h, lines 137-163). -/
structure Video where
  m_stream : FStream
  m_rows : Nat
  m_cols : Nat
  m_fps : Nat
  m_fromCam : Bool
  m_video : VideoCapture
  m_type : FormatValue
  m_headerSize : Nat
  deriving DecidableEq, Repr

/-- The `uint` members of a `Video` are in the range of the type. -/
def Video.InRange (v : Video) : Prop :=
  v.m_rows < UINT_RANGE ∧ v.m_cols < UINT_RANGE ∧ v.m_fps < UINT_RANGE ∧
    v.m_headerSize < UINT_RANGE

instance (v : Video) : Decidable v.InRange := by
  unfold Video.InRange
  exact inferInstance

/-! ## `Video::getFrameSize` -/

/-- The `switch (m_type)` statement of `Video::getFrameSize` (video.h, lines
122-131): `some n` when a `case` executes `return n`, `none` when control
leaves the switch without returning.

* `case RGB: case YUV_444: return m_rows * m_cols * 3;`
* `case YUV_422: return m_rows * m_cols + (m_rows * m_cols / 2) * 2;`
* `case YUV_420: return m_rows * m_cols + (m_rows / 2 * m_cols / 2) * 2;`

`*` and `/` associate to the left, so `m_rows / 2 * m_cols / 2` is
`((m_rows / 2) * m_cols) / 2`. -/
def Video.getFrameSizeSwitch (v : Video) : Option Nat :=
  match v.m_type with
  | .named .RGB => some (umul (umul v.m_rows v.m_cols) 3)
  | .named .YUV_444 => some (umul (umul v.m_rows v.m_cols) 3)
  | .named .YUV_422 =>
      some (uadd (umul v.m_rows v.m_cols) (umul (udiv (umul v.m_rows v.m_cols) 2) 2))
  | .named .YUV_420 =>
      some (uadd (umul v.m_rows v.m_cols)
        (umul (udiv (umul (udiv v.m_rows 2) v.m_cols) 2) 2))
  | .unlisted => none

/-- The member function `Video::getFrameSize` (video.h, lines 120-133): the
value returned by the switch, or the trailing `return 0;`. -/
def Video.getFrameSize (v : Video) : Nat :=
  match v.getFrameSizeSwitch with
  | some n => n
  | none => 0

/-- A call of the member function `getFrameSize` on the object `v`: the
returned value together with the state of the object after the call. The body
contains no assignment and calls nothing, so the object is left as it was. -/
def Video.callGetFrameSize (v : Video) : Nat × Video :=
  (v.getFrameSize, v)

/-! ## `Video::getTotalFrames` -/

/-- Modelled from the spec: `Video::getTotalFrames` is only declared in
`video.h` (line 117); its body lives in `video.cpp`, which is not among the
files under src/. Section 4.8 of the specification: for a raw stream the
result is `(fileSizeBytes - headerSize) / frameByteSize`, truncating any
partial trailing frame; for a camera or container source the backend's
frame-count query is returned. -/
def Video.getTotalFrames (v : Video) : Nat :=
  if v.m_fromCam then v.m_video.frameCount
  else (v.m_stream.fileSizeBytes - v.m_headerSize) / v.getFrameSize

/-- The object `v` with its layout replaced by the enumerator `f`. -/
def Video.withFormat (v : Video) (f : VideoFormat) : Video :=
  { v with m_type := .named f }

/-! ## Sample objects -/

/-- A closed stream over an empty file. -/
def FStream.closed : FStream := { isOpen := false, fileSizeBytes := 0, pos := 0 }

/-- A capture that was never opened. -/
def VideoCapture.closed : VideoCapture := { isOpened := false, frameCount := 0 }

/-- A raw-stream `Video` (no camera, no header) over a file of `size` bytes. -/
def rawVideo (size rows cols : Nat) (fmt : FormatValue) : Video :=
  { m_stream := { isOpen := true, fileSizeBytes := size, pos := 0 }
    m_rows := rows
    m_cols := cols
    m_fps := 25
    m_fromCam := false
    m_video := VideoCapture.closed
    m_type := fmt
    m_headerSize := 0 }

/-- A camera-backed `Video` with the same geometry and layout as a raw one
but different frame rate, header size, stream and capture state. -/
def camVideo (rows cols : Nat) (fmt : FormatValue) : Video :=
  { m_stream := FStream.closed
    m_rows := rows
    m_cols := cols
    m_fps := 30
    m_fromCam := true
    m_video := { isOpened := true, frameCount := 7 }
    m_type := fmt
    m_headerSize := 16 }

/-! ## Arithmetic helpers -/

theorem umul_of_lt {a b : Nat} (h : a * b < 2 ^ 32) : umul a b = a * b := by
  unfold umul UINT_RANGE
  exact Nat.mod_eq_of_lt h

theorem uadd_of_lt {a b : Nat} (h : a + b < 2 ^ 32) : uadd a b = a + b := by
  unfold uadd UINT_RANGE
  exact Nat.mod_eq_of_lt h

/-- Under the no-overflow bound the product `rows * cols` fits. -/
theorem prod_lt_of_three {r c : Nat} (h : 3 * r * c < 2 ^ 32) : r * c < 2 ^ 32 := by
  have : 3 * r * c = 3 * (r * c) := Nat.mul_assoc 3 r c
  omega

/-- Closed form of the 4:4:4 / RGB case under the no-overflow bound. -/
theorem frameSize444_eq {r c : Nat} (h : 3 * r * c < 2 ^ 32) :
    umul (umul r c) 3 = 3 * r * c := by
  have hp := prod_lt_of_three h
  have e : 3 * r * c = 3 * (r * c) := Nat.mul_assoc 3 r c
  rw [umul_of_lt hp, umul_of_lt (by omega)]
  omega

/-- Closed form of the 4:2:2 case under the no-overflow bound. -/
theorem frameSize422_eq {r c : Nat} (h : 3 * r * c < 2 ^ 32) :
    uadd (umul r c) (umul (udiv (umul r c) 2) 2) = r * c + r * c / 2 * 2 := by
  have hp := prod_lt_of_three h
  have e : 3 * r * c = 3 * (r * c) := Nat.mul_assoc 3 r c
  unfold udiv
  rw [umul_of_lt hp, umul_of_lt (by omega), uadd_of_lt (by omega)]

/-- Closed form of the 4:2:0 case under the no-overflow bound. -/
theorem frameSize420_eq {r c : Nat} (h : 3 * r * c < 2 ^ 32) :
    uadd (umul r c) (umul (udiv (umul (udiv r 2) c) 2) 2)
      = r * c + r / 2 * c / 2 * 2 := by
  have hp := prod_lt_of_three h
  have e : 3 * r * c = 3 * (r * c) := Nat.mul_assoc 3 r c
  have hle : r / 2 * c ≤ r * c := Nat.mul_le_mul_right c (Nat.div_le_self r 2)
  unfold udiv
  rw [umul_of_lt (show r / 2 * c < 2 ^ 32 by omega), umul_of_lt hp,
    umul_of_lt (by omega), uadd_of_lt (by omega)]

/-- Wrapped form of the 4:4:4 / RGB case, for all operands. -/
theorem frameSize444_mod (r c : Nat) : umul (umul r c) 3 = (3 * r * c) % 2 ^ 32 := by
  unfold umul UINT_RANGE
  rw [Nat.mod_mul_mod, Nat.mul_comm (r * c) 3, Nat.mul_assoc]

/-! ## The 4:4:4 and RGB layouts -/

/-- C1: when `3 * rows * cols` fits in 32 bits, `getFrameSize` returns exactly
`3 * rows * cols` for the layout `YUV_444`, and the same value for `RGB`. -/
theorem getFrameSize_444_rgb (v : Video)
    (hb : 3 * v.m_rows * v.m_cols < 2 ^ 32)
    (ht : v.m_type = .named .YUV_444 ∨ v.m_type = .named .RGB) :
    v.getFrameSize = 3 * v.m_rows * v.m_cols ∧
      (v.withFormat .YUV_444).getFrameSize = (v.withFormat .RGB).getFrameSize := by
  refine ⟨?_, rfl⟩
  rcases ht with ht | ht <;>
    simp only [Video.getFrameSize, Video.getFrameSizeSwitch, ht] <;>
    exact frameSize444_eq hb

/-- C1 at rows = 2, cols = 2: the frame size is 12 for both layouts, so a
file of 24 bytes holds exactly two frames. -/
theorem getFrameSize_444_rgb_witness :
    3 * (rawVideo 24 2 2 (.named .YUV_444)).m_rows
        * (rawVideo 24 2 2 (.named .YUV_444)).m_cols < 2 ^ 32 ∧
      (rawVideo 24 2 2 (.named .YUV_444)).getFrameSize = 12 ∧
      (rawVideo 24 2 2 (.named .RGB)).getFrameSize = 12 ∧
      24 = 2 * (rawVideo 24 2 2 (.named .YUV_444)).getFrameSize :=
  ⟨by decide,
    (getFrameSize_444_rgb (rawVideo 24 2 2 (.named .YUV_444)) (by decide) (Or.inl rfl)).1,
    by decide, by decide⟩

/-! ## The 4:2:2 layout -/

/-- C2, as stated, fails for an odd pixel count: at rows = 1, cols = 1 (both
positive, no overflow) the layout `YUV_422` gives a frame size of 1, not
`2 * 1 * 1`. -/
theorem getFrameSize_422_odd_counterexample :
    (rawVideo 2 1 1 (.named .YUV_422)).InRange ∧
      0 < (rawVideo 2 1 1 (.named .YUV_422)).m_rows ∧
      0 < (rawVideo 2 1 1 (.named .YUV_422)).m_cols ∧
      3 * (rawVideo 2 1 1 (.named .YUV_422)).m_rows
        * (rawVideo 2 1 1 (.named .YUV_422)).m_cols < 2 ^ 32 ∧
      (rawVideo 2 1 1 (.named .YUV_422)).getFrameSize = 1 ∧
      (rawVideo 2 1 1 (.named .YUV_422)).getFrameSize
        ≠ 2 * (rawVideo 2 1 1 (.named .YUV_422)).m_rows
            * (rawVideo 2 1 1 (.named .YUV_422)).m_cols := by
  decide

/-- C2, amended: when `3 * rows * cols` fits in 32 bits, `getFrameSize` for
the layout `YUV_422` returns exactly `2 * rows * cols` if and only if
`rows * cols` is even. -/
theorem getFrameSize_422_iff_even (v : Video)
    (hb : 3 * v.m_rows * v.m_cols < 2 ^ 32)
    (ht : v.m_type = .named .YUV_422) :
    v.getFrameSize = 2 * v.m_rows * v.m_cols ↔ (v.m_rows * v.m_cols) % 2 = 0 := by
  simp only [Video.getFrameSize, Video.getFrameSizeSwitch, ht]
  rw [frameSize422_eq hb, Nat.mul_assoc 2]
  omega

/-- C2, amended, at rows = 2, cols = 3 (even pixel count, frame size 12). -/
theorem getFrameSize_422_iff_even_witness :
    3 * (rawVideo 24 2 3 (.named .YUV_422)).m_rows
        * (rawVideo 24 2 3 (.named .YUV_422)).m_cols < 2 ^ 32 ∧
      (rawVideo 24 2 3 (.named .YUV_422)).m_type = .named .YUV_422 ∧
      (rawVideo 24 2 3 (.named .YUV_422)).getFrameSize = 2 * 2 * 3 :=
  ⟨by decide, rfl,
    (getFrameSize_422_iff_even (rawVideo 24 2 3 (.named .YUV_422)) (by decide) rfl).2
      (by decide)⟩

/-- C9: when `3 * rows * cols` fits in 32 bits, `getFrameSize` for the layout
`YUV_422` is `2 * rows * cols - (rows * cols) % 2`: the two chroma planes take
`2 * (rows * cols / 2)` bytes together, so the result is `2 * rows * cols`
when the pixel count is even and one less when it is odd. -/
theorem getFrameSize_422_formula (v : Video)
    (hb : 3 * v.m_rows * v.m_cols < 2 ^ 32)
    (ht : v.m_type = .named .YUV_422) :
    v.getFrameSize = 2 * v.m_rows * v.m_cols - (v.m_rows * v.m_cols) % 2 ∧
      v.getFrameSize = v.m_rows * v.m_cols + 2 * (v.m_rows * v.m_cols / 2) ∧
      ((v.m_rows * v.m_cols) % 2 = 0 → v.getFrameSize = 2 * v.m_rows * v.m_cols) ∧
      ((v.m_rows * v.m_cols) % 2 = 1 → v.getFrameSize + 1 = 2 * v.m_rows * v.m_cols) := by
  simp only [Video.getFrameSize, Video.getFrameSizeSwitch, ht]
  rw [frameSize422_eq hb, Nat.mul_assoc 2]
  omega

/-- C9 at rows = 3, cols = 3 (odd pixel count): the frame size is 17 = 18 - 1. -/
theorem getFrameSize_422_formula_witness :
    3 * (rawVideo 17 3 3 (.named .YUV_422)).m_rows
        * (rawVideo 17 3 3 (.named .YUV_422)).m_cols < 2 ^ 32 ∧
      (rawVideo 17 3 3 (.named .YUV_422)).m_type = .named .YUV_422 ∧
      (rawVideo 17 3 3 (.named .YUV_422)).getFrameSize = 2 * 3 * 3 - (3 * 3) % 2 ∧
      (rawVideo 17 3 3 (.named .YUV_422)).getFrameSize + 1 = 2 * 3 * 3 :=
  ⟨by decide, rfl,
    (getFrameSize_422_formula (rawVideo 17 3 3 (.named .YUV_422)) (by decide) rfl).1,
    (getFrameSize_422_formula (rawVideo 17 3 3 (.named .YUV_422)) (by decide) rfl).2.2.2
      (by decide)⟩

/-! ## The 4:2:0 layout -/

/-- C3: for even `rows` and even `cols` with `3 * rows * cols` fitting in 32
bits, `getFrameSize` for the layout `YUV_420` is one and a half times the
pixel count: `2 * getFrameSize = 3 * rows * cols`. -/
theorem getFrameSize_420_even (v : Video)
    (hr : v.m_rows % 2 = 0) (hc : v.m_cols % 2 = 0)
    (hb : 3 * v.m_rows * v.m_cols < 2 ^ 32)
    (ht : v.m_type = .named .YUV_420) :
    2 * v.getFrameSize = 3 * v.m_rows * v.m_cols := by
  simp only [Video.getFrameSize, Video.getFrameSizeSwitch, ht]
  rw [frameSize420_eq hb]
  obtain ⟨a, ha⟩ : ∃ a, v.m_rows = 2 * a := ⟨v.m_rows / 2, by omega⟩
  obtain ⟨b, hb2⟩ : ∃ b, v.m_cols = 2 * b := ⟨v.m_cols / 2, by omega⟩
  rw [ha, hb2]
  have h1 : 2 * a / 2 = a := by omega
  have h2 : a * (2 * b) / 2 = a * b := by
    rw [Nat.mul_left_comm]
    exact Nat.mul_div_cancel_left _ (by decide)
  rw [h1, h2]
  ring

/-- C3 at rows = 4, cols = 6: the frame size is 36 and `2 * 36 = 3 * 4 * 6`. -/
theorem getFrameSize_420_even_witness :
    (rawVideo 72 4 6 (.named .YUV_420)).m_rows % 2 = 0 ∧
      (rawVideo 72 4 6 (.named .YUV_420)).m_cols % 2 = 0 ∧
      3 * (rawVideo 72 4 6 (.named .YUV_420)).m_rows
        * (rawVideo 72 4 6 (.named .YUV_420)).m_cols < 2 ^ 32 ∧
      (rawVideo 72 4 6 (.named .YUV_420)).getFrameSize = 36 ∧
      2 * (rawVideo 72 4 6 (.named .YUV_420)).getFrameSize = 3 * 4 * 6 :=
  ⟨by decide, by decide, by decide, by decide,
    getFrameSize_420_even (rawVideo 72 4 6 (.named .YUV_420))
      (by decide) (by decide) (by decide) rfl⟩

/-- When `cols` is even (and nothing overflows) the 4:2:0 frame size is the
luma plane plus two chroma planes of `(rows / 2) * (cols / 2)` samples. -/
theorem frameSize420_halved_of_even_cols (v : Video)
    (hc : v.m_cols % 2 = 0)
    (hb : 3 * v.m_rows * v.m_cols < 2 ^ 32)
    (ht : v.m_type = .named .YUV_420) :
    v.getFrameSize = v.m_rows * v.m_cols + 2 * (v.m_rows / 2 * (v.m_cols / 2)) := by
  simp only [Video.getFrameSize, Video.getFrameSizeSwitch, ht]
  rw [frameSize420_eq hb]
  obtain ⟨b, hb2⟩ : ∃ b, v.m_cols = 2 * b := ⟨v.m_cols / 2, by omega⟩
  rw [hb2]
  have h1 : 2 * b / 2 = b := by omega
  have h2 : v.m_rows / 2 * (2 * b) / 2 = v.m_rows / 2 * b := by
    rw [Nat.mul_left_comm]
    exact Nat.mul_div_cancel_left _ (by decide)
  rw [h1, h2]
  ring

/-- C4 at rows = 4, cols = 3 (positive, in range, no overflow): the source
expression `m_rows / 2 * m_cols / 2` is `((4 / 2) * 3) / 2 = 3`, so the frame
size is `12 + 3 * 2 = 18`, while the luma plane plus two chroma planes with
each dimension halved is `12 + 2 * (2 * 1) = 16`. -/
theorem getFrameSize_420_at_4_3 :
    (rawVideo 18 4 3 (.named .YUV_420)).InRange ∧
      0 < (rawVideo 18 4 3 (.named .YUV_420)).m_rows ∧
      0 < (rawVideo 18 4 3 (.named .YUV_420)).m_cols ∧
      3 * (rawVideo 18 4 3 (.named .YUV_420)).m_rows
        * (rawVideo 18 4 3 (.named .YUV_420)).m_cols < 2 ^ 32 ∧
      (rawVideo 18 4 3 (.named .YUV_420)).getFrameSize = 18 ∧
      (rawVideo 18 4 3 (.named .YUV_420)).m_rows * (rawVideo 18 4 3 (.named .YUV_420)).m_cols
        + 2 * ((rawVideo 18 4 3 (.named .YUV_420)).m_rows / 2
            * ((rawVideo 18 4 3 (.named .YUV_420)).m_cols / 2)) = 16 := by
  decide

/-! ## Purity and totality -/

/-- C5: `getFrameSize` is a pure function of rows, cols and layout: two
objects that agree on `m_rows`, `m_cols` and `m_type` get the same result,
whatever their frame rate, header size, camera flag, stream and capture are,
and a call leaves every field of the object unchanged. -/
theorem getFrameSize_pure (v w : Video)
    (hr : v.m_rows = w.m_rows) (hc : v.m_cols = w.m_cols) (ht : v.m_type = w.m_type) :
    v.callGetFrameSize.1 = w.callGetFrameSize.1 ∧
      v.callGetFrameSize.2 = v ∧ w.callGetFrameSize.2 = w := by
  refine ⟨?_, rfl, rfl⟩
  simp only [Video.callGetFrameSize, Video.getFrameSize, Video.getFrameSizeSwitch, hr, hc, ht]

/-- C5 on a raw-stream object and a camera-backed object that share only the
geometry 4 x 3 and the layout `YUV_420`. -/
theorem getFrameSize_pure_witness :
    (rawVideo 36 4 3 (.named .YUV_420)).m_fps ≠ (camVideo 4 3 (.named .YUV_420)).m_fps ∧
      (rawVideo 36 4 3 (.named .YUV_420)).m_headerSize
        ≠ (camVideo 4 3 (.named .YUV_420)).m_headerSize ∧
      (rawVideo 36 4 3 (.named .YUV_420)).m_fromCam
        ≠ (camVideo 4 3 (.named .YUV_420)).m_fromCam ∧
      (rawVideo 36 4 3 (.named .YUV_420)).m_stream
        ≠ (camVideo 4 3 (.named .YUV_420)).m_stream ∧
      ((rawVideo 36 4 3 (.named .YUV_420)).callGetFrameSize.1
          = (camVideo 4 3 (.named .YUV_420)).callGetFrameSize.1 ∧
        (rawVideo 36 4 3 (.named .YUV_420)).callGetFrameSize.2
          = rawVideo 36 4 3 (.named .YUV_420) ∧
        (camVideo 4 3 (.named .YUV_420)).callGetFrameSize.2
          = camVideo 4 3 (.named .YUV_420)) :=
  ⟨by decide, by decide, by decide, by decide,
    getFrameSize_pure (rawVideo 36 4 3 (.named .YUV_420)) (camVideo 4 3 (.named .YUV_420))
      rfl rfl rfl⟩

/-- C6: for each of the four layouts `RGB`, `YUV_444`, `YUV_422`, `YUV_420`
the switch of `getFrameSize` returns from a `case` (the trailing `return 0` is
not reached) and the function returns that value; for positive `rows` and
`cols` with `3 * rows * cols` fitting in 32 bits the result is not zero. -/
theorem getFrameSize_total (v : Video) (f : VideoFormat)
    (ht : v.m_type = .named f) :
    (∃ n, v.getFrameSizeSwitch = some n ∧ v.getFrameSize = n) ∧
      v.getFrameSizeSwitch ≠ none ∧
      (0 < v.m_rows → 0 < v.m_cols → 3 * v.m_rows * v.m_cols < 2 ^ 32 →
        v.getFrameSize ≠ 0) := by
  refine ⟨?_, ?_, ?_⟩
  · cases f <;> simp [Video.getFrameSize, Video.getFrameSizeSwitch, ht]
  · cases f <;> simp [Video.getFrameSizeSwitch, ht]
  · intro hr hc hb
    have hpos : 0 < v.m_rows * v.m_cols := Nat.mul_pos hr hc
    have e : 3 * v.m_rows * v.m_cols = 3 * (v.m_rows * v.m_cols) := Nat.mul_assoc _ _ _
    cases f <;> simp only [Video.getFrameSize, Video.getFrameSizeSwitch, ht]
    · rw [frameSize444_eq hb]; omega
    · rw [frameSize444_eq hb]; omega
    · rw [frameSize422_eq hb]; omega
    · rw [frameSize420_eq hb]; omega

/-- C6 at rows = 1, cols = 1 with the layout `YUV_420`, the smallest frame:
the switch returns 1 from its own case. -/
theorem getFrameSize_total_witness :
    (rawVideo 1 1 1 (.named .YUV_420)).m_type = .named .YUV_420 ∧
      (rawVideo 1 1 1 (.named .YUV_420)).getFrameSizeSwitch = some 1 ∧
      (rawVideo 1 1 1 (.named .YUV_420)).getFrameSizeSwitch ≠ none ∧
      (rawVideo 1 1 1 (.named .YUV_420)).getFrameSize ≠ 0 :=
  ⟨rfl, by decide,
    (getFrameSize_total (rawVideo 1 1 1 (.named .YUV_420)) .YUV_420 rfl).2.1,
    (getFrameSize_total (rawVideo 1 1 1 (.named .YUV_420)) .YUV_420 rfl).2.2
      (by decide) (by decide) (by decide)⟩

/-! ## Frame count of a raw stream -/

/-- C7: for a raw-stream object with layout `YUV_444`, rows = 2, cols = 2 and
header size 0, the frame size is 12 and `getTotalFrames` is
`(fileSizeBytes - headerSize) / getFrameSize`, the number of whole frames in
the file (a partial trailing frame is dropped); over a 24-byte file it is 2. -/
theorem getTotalFrames_raw_444_2x2 (v : Video)
    (hcam : v.m_fromCam = false) (ht : v.m_type = .named .YUV_444)
    (hr : v.m_rows = 2) (hc : v.m_cols = 2) (hh : v.m_headerSize = 0) :
    v.getFrameSize = 12 ∧
      v.getTotalFrames = (v.m_stream.fileSizeBytes - v.m_headerSize) / v.getFrameSize ∧
      v.getTotalFrames * 12 ≤ v.m_stream.fileSizeBytes ∧
      v.m_stream.fileSizeBytes < (v.getTotalFrames + 1) * 12 ∧
      (v.m_stream.fileSizeBytes = 24 → v.getTotalFrames = 2) := by
  have hfs : v.getFrameSize = 12 := by
    simp only [Video.getFrameSize, Video.getFrameSizeSwitch, ht, hr, hc]
    decide
  have htot : v.getTotalFrames = v.m_stream.fileSizeBytes / 12 := by
    simp [Video.getTotalFrames, hcam, hh, hfs]
  refine ⟨hfs, ?_, ?_, ?_, ?_⟩
  · simp [Video.getTotalFrames, hcam]
  · rw [htot]; omega
  · rw [htot]; omega
  · intro hs
    rw [htot, hs]

/-- C7 on the 24-byte file of the scenario: 2 frames of 12 bytes. -/
theorem getTotalFrames_raw_444_2x2_witness :
    (rawVideo 24 2 2 (.named .YUV_444)).m_fromCam = false ∧
      (rawVideo 24 2 2 (.named .YUV_444)).m_headerSize = 0 ∧
      (rawVideo 24 2 2 (.named .YUV_444)).m_stream.fileSizeBytes = 24 ∧
      (rawVideo 24 2 2 (.named .YUV_444)).getFrameSize = 12 ∧
      (rawVideo 24 2 2 (.named .YUV_444)).getTotalFrames = 2 :=
  ⟨rfl, rfl, rfl,
    (getTotalFrames_raw_444_2x2 (rawVideo 24 2 2 (.named .YUV_444)) rfl rfl rfl rfl rfl).1,
    (getTotalFrames_raw_444_2x2 (rawVideo 24 2 2 (.named .YUV_444)) rfl rfl rfl rfl rfl).2.2.2.2
      rfl⟩

/-! ## Relations between the layouts -/

/-- C8: when `3 * rows * cols` fits in 32 bits the frame sizes are ordered by
chroma resolution: `rows * cols ≤ YUV_420 ≤ YUV_422 ≤ YUV_444 = RGB`. -/
theorem getFrameSize_ordered (v : Video)
    (hb : 3 * v.m_rows * v.m_cols < 2 ^ 32) :
    v.m_rows * v.m_cols ≤ (v.withFormat .YUV_420).getFrameSize ∧
      (v.withFormat .YUV_420).getFrameSize ≤ (v.withFormat .YUV_422).getFrameSize ∧
      (v.withFormat .YUV_422).getFrameSize ≤ (v.withFormat .YUV_444).getFrameSize ∧
      (v.withFormat .YUV_444).getFrameSize = (v.withFormat .RGB).getFrameSize := by
  simp only [Video.getFrameSize, Video.getFrameSizeSwitch, Video.withFormat]
  rw [frameSize444_eq hb, frameSize422_eq hb, frameSize420_eq hb]
  have e : 3 * v.m_rows * v.m_cols = 3 * (v.m_rows * v.m_cols) := Nat.mul_assoc _ _ _
  have hle : v.m_rows / 2 * v.m_cols ≤ v.m_rows * v.m_cols :=
    Nat.mul_le_mul_right _ (Nat.div_le_self _ 2)
  refine ⟨by omega, by omega, by omega, trivial⟩

/-- C8 at rows = 4, cols = 3: `12 ≤ 18 ≤ 24 ≤ 36 = 36`. -/
theorem getFrameSize_ordered_witness :
    3 * (rawVideo 0 4 3 .unlisted).m_rows * (rawVideo 0 4 3 .unlisted).m_cols < 2 ^ 32 ∧
      ((rawVideo 0 4 3 .unlisted).withFormat .YUV_420).getFrameSize = 18 ∧
      ((rawVideo 0 4 3 .unlisted).withFormat .YUV_422).getFrameSize = 24 ∧
      ((rawVideo 0 4 3 .unlisted).withFormat .YUV_444).getFrameSize = 36 ∧
      ((rawVideo 0 4 3 .unlisted).m_rows * (rawVideo 0 4 3 .unlisted).m_cols
          ≤ ((rawVideo 0 4 3 .unlisted).withFormat .YUV_420).getFrameSize ∧
        ((rawVideo 0 4 3 .unlisted).withFormat .YUV_420).getFrameSize
          ≤ ((rawVideo 0 4 3 .unlisted).withFormat .YUV_422).getFrameSize ∧
        ((rawVideo 0 4 3 .unlisted).withFormat .YUV_422).getFrameSize
          ≤ ((rawVideo 0 4 3 .unlisted).withFormat .YUV_444).getFrameSize ∧
        ((rawVideo 0 4 3 .unlisted).withFormat .YUV_444).getFrameSize
          = ((rawVideo 0 4 3 .unlisted).withFormat .RGB).getFrameSize) :=
  ⟨by decide, by decide, by decide, by decide,
    getFrameSize_ordered (rawVideo 0 4 3 .unlisted) (by decide)⟩

/-! ## Wrap-around -/

/-- C10: `getFrameSize` computes in 32-bit unsigned arithmetic: for all rows
and cols its result for `YUV_444` and for `RGB` is `(3 * rows * cols) mod 2^32`.
At rows = cols = 65536 (positive and in range) it therefore returns 0, the
value the trailing `return 0` gives for a layout matching no case. -/
theorem getFrameSize_444_wraps :
    (∀ v : Video,
        (v.withFormat .YUV_444).getFrameSize = (3 * v.m_rows * v.m_cols) % 2 ^ 32 ∧
        (v.withFormat .RGB).getFrameSize = (3 * v.m_rows * v.m_cols) % 2 ^ 32) ∧
      (rawVideo 0 65536 65536 (.named .YUV_444)).InRange ∧
      0 < (rawVideo 0 65536 65536 (.named .YUV_444)).m_rows ∧
      0 < (rawVideo 0 65536 65536 (.named .YUV_444)).m_cols ∧
      (rawVideo 0 65536 65536 (.named .YUV_444)).getFrameSize = 0 ∧
      (rawVideo 0 65536 65536 (.named .RGB)).getFrameSize = 0 ∧
      (rawVideo 0 65536 65536 .unlisted).getFrameSizeSwitch = none ∧
      (rawVideo 0 65536 65536 (.named .YUV_444)).getFrameSize
        = (rawVideo 0 65536 65536 .unlisted).getFrameSize := by
  refine ⟨fun v => ⟨?_, ?_⟩, by decide, by decide, by decide, by decide, by decide,
    rfl, by decide⟩ <;>
  · simp only [Video.getFrameSize, Video.getFrameSizeSwitch, Video.withFormat]
    exact frameSize444_mod _ _

end Cav
